import Mathlib

/-!
Verification of the snake-game simulation engine from `src/snake_game/src/main.rs`.

The Rust source is shallowly embedded below.  Machine integers are modelled
as `Nat`: the `u16` coordinate increments `x + 1`, `y + 1` are taken modulo
`2^16 = 65536` (release-mode wrapping), `saturating_sub 1` is `Nat`
truncated subtraction (which already saturates at zero), and panicking
operations (`front().unwrap()`, `gen_range` on an empty range) are modelled
as `Option` with `none` for the panic.  The random number generator used by
`place_food` is modelled by an explicit stream of raw samples, each mapped
into the half-open range requested from `gen_range` exactly as the rng
contract guarantees.
-/

namespace SnakeGame

/-- A single point on the 2D game grid (`struct Point { x: u16, y: u16 }`). -/
structure Point where
  x : Nat
  y : Nat
deriving DecidableEq

/-- The direction the snake can move (`enum Direction`). -/
inductive Direction where
  | up
  | down
  | left
  | right
deriving DecidableEq

/-- Embeds `Direction::opposite`. -/
def Direction.opposite : Direction → Direction
  | .up => .down
  | .down => .up
  | .left => .right
  | .right => .left

/-- The snake (`struct Snake`): body queue (front = head), current direction,
and the buffered direction change `next_direction`. -/
structure Snake where
  body : List Point
  direction : Direction
  next_direction : Option Direction
deriving DecidableEq

/-- Embeds `Snake::new`: a length-1 snake in the middle of the board, moving right. -/
def Snake.new (width height : Nat) : Snake :=
  { body := [⟨width / 2, height / 2⟩]
    direction := .right
    next_direction := none }

/-- The direction that `move_forward` will apply: the buffered one if present,
otherwise the current one (the `if let Some(dir) = self.next_direction` step). -/
def Snake.effective_direction (s : Snake) : Direction :=
  match s.next_direction with
  | some d => d
  | none => s.direction

/-- The new head computed by `Snake::move_forward`: one step from `head` in
direction `d`, with `u16` wrapping on increment and saturation on decrement. -/
def movePoint (head : Point) : Direction → Point
  | .up => ⟨head.x, head.y - 1⟩
  | .down => ⟨head.x, (head.y + 1) % 65536⟩
  | .left => ⟨head.x - 1, head.y⟩
  | .right => ⟨(head.x + 1) % 65536, head.y⟩

/-- Embeds `Snake::move_forward`: apply the pending direction change, push the new
head, and pop the tail unless food was eaten.  `none` models the
`front().unwrap()` panic on an empty body. -/
def Snake.move_forward (s : Snake) (ate_food : Bool) : Option Snake :=
  match s.body with
  | [] => none
  | head :: rest =>
    let new_head := movePoint head s.effective_direction
    let new_body := new_head :: head :: rest
    some { body := if ate_food then new_body else new_body.dropLast
           direction := s.effective_direction
           next_direction := none }

/-- Embeds `Snake::change_direction`: buffer the request unless it is the exact
opposite of the direction currently in effect. -/
def Snake.change_direction (s : Snake) (new_direction : Direction) : Snake :=
  if s.direction ≠ new_direction.opposite then
    { s with next_direction := some new_direction }
  else s

/-- Embeds `Snake::has_collided_with_self`: whether the head equals any later body
segment.  `none` models the `front().unwrap()` panic on an empty body. -/
def Snake.has_collided_with_self (s : Snake) : Option Bool :=
  match s.body with
  | [] => none
  | head :: rest => some (rest.any fun segment => decide (segment = head))

/-- The main game state (`struct Game`); `Instant`/`Duration` timestamps are
modelled as natural numbers of milliseconds. -/
structure Game where
  snake : Snake
  food : Point
  score : Nat
  game_over : Bool
  width : Nat
  height : Nat
  last_update : Nat
  frame_duration : Nat
deriving DecidableEq

/-- Embeds `rng.gen_range(lo..hi)` for `lo < hi`: some value in `[lo, hi)`; the raw
sample is reduced into the range, mirroring the rng contract. -/
def sample_range (lo hi raw : Nat) : Nat := lo + raw % (hi - lo)

/-- Embeds `Game::place_food`: rejection-sample a point with both coordinates
strictly inside the border until it misses the snake body.  The infinite
rng loop is modelled by a finite stream of raw samples; `none` means the
stream ran out (the Rust loop would keep retrying), and an empty
`gen_range` range (board of width or height below 3, a `gen_range` panic)
also yields `none`. -/
def place_food (width height : Nat) (body : List Point) :
    List (Nat × Nat) → Option Point
  | [] => none
  | (rx, ry) :: rest =>
    if width - 1 ≤ 1 ∨ height - 1 ≤ 1 then none
    else
      let new_food_pos : Point :=
        ⟨sample_range 1 (width - 1) rx, sample_range 1 (height - 1) ry⟩
      if new_food_pos ∈ body then place_food width height body rest
      else some new_food_pos

/-- Embeds `Game::update_game`: one simulation tick.  Reads the pre-advance head,
computes `ate_food`, advances the snake, on eating bumps the score and
relocates the food against the post-advance body, then evaluates the
terminal conditions on the new head. -/
def Game.update_game (g : Game) (rands : List (Nat × Nat)) : Option Game :=
  match g.snake.body with
  | [] => none
  | head :: _ =>
    let ate_food : Bool := decide (head = g.food)
    match g.snake.move_forward ate_food with
    | none => none
    | some moved =>
      let after_food : Option Game :=
        if ate_food then
          match place_food g.width g.height moved.body rands with
          | none => none
          | some p => some { g with snake := moved, score := g.score + 1, food := p }
        else some { g with snake := moved }
      match after_food with
      | none => none
      | some g1 =>
        match g1.snake.body with
        | [] => none
        | new_head :: _ =>
          match g1.snake.has_collided_with_self with
          | none => none
          | some self_hit =>
            if new_head.x = 0 ∨ new_head.x = g.width - 1 ∨ new_head.y = 0
                ∨ new_head.y = g.height - 1 ∨ self_hit then
              some { g1 with game_over := true }
            else some g1

/-- A directional or quit intent decoded from a key event in
`Game::handle_input` (keys that map to nothing are `other`). -/
inductive Intent where
  | moveUp
  | moveDown
  | moveLeft
  | moveRight
  | quit
  | other
deriving DecidableEq

/-- Processing of a single decoded key event in `Game::handle_input`:
movement keys request a direction change, `q`/`Esc` sets `game_over`. -/
def Game.handle_one (g : Game) : Intent → Game
  | .moveUp => { g with snake := g.snake.change_direction .up }
  | .moveDown => { g with snake := g.snake.change_direction .down }
  | .moveLeft => { g with snake := g.snake.change_direction .left }
  | .moveRight => { g with snake := g.snake.change_direction .right }
  | .quit => { g with game_over := true }
  | .other => g

/-- Embeds `Game::handle_input`: drain the queued intents in order. -/
def Game.handle_input (g : Game) (intents : List Intent) : Game :=
  intents.foldl Game.handle_one g

/-- The tick-scheduler gate from `Game::run`:
`now.duration_since(self.last_update) >= self.frame_duration`.
`Instant::duration_since` saturates at zero, which is `Nat` subtraction. -/
def should_step (now last_update frame_duration : Nat) : Bool :=
  decide (frame_duration ≤ now - last_update)

/-- The timed block of `Game::run`: if the gate admits a step, set
`last_update := now` and run `update_game`; otherwise leave the state
untouched. -/
def Game.tick (g : Game) (now : Nat) (rands : List (Nat × Nat)) : Option Game :=
  if should_step now g.last_update g.frame_duration then
    Game.update_game { g with last_update := now } rands
  else some g

/-- One snake-level operation: an `advance` tick (`move_forward`) or a
direction-change `request` (`change_direction`). -/
inductive Op where
  | advance (ate_food : Bool)
  | request (d : Direction)
deriving DecidableEq

/-- Run a list of snake operations from a starting snake. -/
def runOps : Snake → List Op → Option Snake
  | s, [] => some s
  | s, Op.advance ate_food :: ops =>
    match s.move_forward ate_food with
    | none => none
    | some s' => runOps s' ops
  | s, Op.request d :: ops => runOps (s.change_direction d) ops

/-- Snake states reachable from `Snake.new width height` by any sequence of
advances and direction-change requests. -/
inductive Reach (width height : Nat) : Snake → Prop where
  | init : Reach width height (Snake.new width height)
  | advance {s s' : Snake} (ate_food : Bool) :
      Reach width height s → s.move_forward ate_food = some s' →
      Reach width height s'
  | request {s : Snake} (d : Direction) :
      Reach width height s → Reach width height (s.change_direction d)

end SnakeGame

namespace SnakeGame

/-! ## Basic lemmas about directions and snake operations -/

lemma opposite_opposite (d : Direction) : d.opposite.opposite = d := by
  cases d <;> rfl

lemma opposite_ne (d : Direction) : d.opposite ≠ d := by
  cases d <;> simp [Direction.opposite]

lemma change_direction_body (s : Snake) (d : Direction) :
    (s.change_direction d).body = s.body := by
  unfold Snake.change_direction
  split <;> rfl

lemma move_forward_head? (s s' : Snake) (ate_food : Bool) (head : Point)
    (hh : s.body.head? = some head) (hm : s.move_forward ate_food = some s') :
    s'.body.head? = some (movePoint head s.effective_direction) := by
  unfold Snake.move_forward at hm
  cases hb : s.body with
  | nil => rw [hb] at hm; simp at hm
  | cons h0 rest =>
    rw [hb] at hh hm
    simp at hh
    subst hh
    simp at hm
    subst hm
    cases ate_food <;> simp

/-! ## The reachable-state invariant used for the reversal claim -/

/-- Invariant of all reachable snake states: every body coordinate is a `u16`
value, a buffered direction is never the opposite of the current one, and
whenever the body has at least two segments the head is one `movePoint` step
from the neck in the current direction. -/
def SnakeInv (s : Snake) : Prop :=
  (∀ p ∈ s.body, p.x < 65536 ∧ p.y < 65536) ∧
  (∀ d, s.next_direction = some d → s.direction ≠ d.opposite) ∧
  (∀ p0 p1 rest, s.body = p0 :: p1 :: rest → p0 = movePoint p1 s.direction)

lemma movePoint_lt (p : Point) (d : Direction) (hx : p.x < 65536) (hy : p.y < 65536) :
    (movePoint p d).x < 65536 ∧ (movePoint p d).y < 65536 := by
  cases d <;> simp [movePoint] <;> omega

lemma snakeInv_new (w h : Nat) (hw : w < 65536) (hh : h < 65536) :
    SnakeInv (Snake.new w h) := by
  refine ⟨?_, ?_, ?_⟩
  · intro p hp
    simp [Snake.new] at hp
    subst hp
    constructor
    · exact lt_of_le_of_lt (Nat.div_le_self _ _) hw
    · exact lt_of_le_of_lt (Nat.div_le_self _ _) hh
  · intro d hd
    simp [Snake.new] at hd
  · intro p0 p1 rest hb
    simp [Snake.new] at hb

lemma snakeInv_change (s : Snake) (d : Direction) (h : SnakeInv s) :
    SnakeInv (s.change_direction d) := by
  obtain ⟨h1, h2, h3⟩ := h
  unfold Snake.change_direction
  split
  · rename_i hc
    exact ⟨h1, fun d' hd' => by injection hd' with hd'; subst hd'; exact hc, h3⟩
  · exact ⟨h1, h2, h3⟩

lemma snakeInv_move (s s' : Snake) (ate_food : Bool) (h : SnakeInv s)
    (hm : s.move_forward ate_food = some s') : SnakeInv s' := by
  obtain ⟨h1, _h2, _h3⟩ := h
  unfold Snake.move_forward at hm
  cases hb : s.body with
  | nil => rw [hb] at hm; simp at hm
  | cons h0 rest =>
    rw [hb] at hm
    simp at hm
    subst hm
    have hh0 : h0 ∈ s.body := by rw [hb]; exact List.mem_cons_self _ _
    have hb0 := h1 h0 hh0
    have hnh := movePoint_lt h0 s.effective_direction hb0.1 hb0.2
    refine ⟨?_, ?_, ?_⟩
    · intro p hp
      cases ate_food with
      | true =>
        simp at hp
        rcases hp with hp | hp | hp
        · subst hp; exact hnh
        · subst hp; exact hb0
        · exact h1 p (by rw [hb]; exact List.mem_cons_of_mem _ hp)
      | false =>
        simp at hp
        rcases hp with hp | hp
        · subst hp; exact hnh
        · have hp' := List.dropLast_subset _ hp
          rcases List.mem_cons.mp hp' with hp' | hp'
          · subst hp'; exact hb0
          · exact h1 p (by rw [hb]; exact List.mem_cons_of_mem _ hp')
    · intro d hd
      simp at hd
    · intro p0 p1 rest' hbody
      cases ate_food with
      | true =>
        simp at hbody
        obtain ⟨he0, he1, _⟩ := hbody
        subst he0; subst he1
        rfl
      | false =>
        cases rest with
        | nil => simp at hbody
        | cons r1 rs =>
          simp at hbody
          obtain ⟨he0, he1, _⟩ := hbody
          subst he0; subst he1
          rfl

lemma reach_inv (w h : Nat) (s : Snake) (hw : w < 65536) (hh : h < 65536)
    (hr : Reach w h s) : SnakeInv s := by
  induction hr with
  | init => exact snakeInv_new w h hw hh
  | advance ate_food _hr hm ih => exact snakeInv_move _ _ _ ih hm
  | request d _hr ih => exact snakeInv_change _ d ih

lemma effective_ne_opposite (s : Snake) (h : SnakeInv s) :
    s.effective_direction ≠ s.direction.opposite := by
  obtain ⟨_, h2, _⟩ := h
  cases hnd : s.next_direction with
  | none =>
    have he : s.effective_direction = s.direction := by
      simp [Snake.effective_direction, hnd]
    rw [he]
    exact fun hc => opposite_ne s.direction hc.symm
  | some d =>
    have he : s.effective_direction = d := by
      simp [Snake.effective_direction, hnd]
    rw [he]
    intro hc
    exact h2 d hnd (by rw [hc, opposite_opposite])

lemma reach_runOps (w h : Nat) (s : Snake) (hr : Reach w h s) :
    ∀ ops s', runOps s ops = some s' → Reach w h s' := by
  intro ops
  induction ops generalizing s with
  | nil => intro s' hs'; rw [runOps] at hs'; injection hs' with hs'; rwa [← hs']
  | cons op rest ih =>
    intro s' hs'
    cases op with
    | advance ate_food =>
      rw [runOps] at hs'
      cases hm : s.move_forward ate_food with
      | none => rw [hm] at hs'; simp at hs'
      | some s1 =>
        rw [hm] at hs'
        simp at hs'
        exact ih s1 (Reach.advance ate_food hr hm) s' hs'
    | request d =>
      rw [runOps] at hs'
      exact ih _ (Reach.request d hr) s' hs'

lemma reach_body_ne_nil (w h : Nat) (s : Snake) (hr : Reach w h s) :
    s.body ≠ [] := by
  induction hr with
  | init => simp [Snake.new]
  | advance ate_food _hr hm _ih =>
    rename_i s0 s1
    unfold Snake.move_forward at hm
    cases hb : s0.body with
    | nil => rw [hb] at hm; simp at hm
    | cons h0 rest =>
      rw [hb] at hm
      simp at hm
      subst hm
      cases ate_food <;> simp
  | request d _hr ih => rwa [change_direction_body]

/-! ## Lemmas about food placement and the per-tick update -/

lemma place_food_not_mem (width height : Nat) (body : List Point) (p : Point) :
    ∀ rands, place_food width height body rands = some p → p ∉ body := by
  intro rands
  induction rands with
  | nil => intro hp; rw [place_food] at hp; simp at hp
  | cons hd rest ih =>
    obtain ⟨rx, ry⟩ := hd
    intro hp
    rw [place_food] at hp
    dsimp only at hp
    split at hp
    · simp at hp
    · split at hp
      · exact ih hp
      · rename_i hmem
        injection hp with hp
        subst hp
        exact hmem

lemma self_hit_iff (s : Snake) (new_head : Point) (tail : List Point) (self_hit : Bool)
    (hb : s.body = new_head :: tail) (hs : s.has_collided_with_self = some self_hit) :
    self_hit = true ↔ new_head ∈ tail := by
  unfold Snake.has_collided_with_self at hs
  rw [hb] at hs
  simp at hs
  subst hs
  simp [List.any_eq_true]

lemma update_game_last_update (g : Game) (rands : List (Nat × Nat)) (g' : Game)
    (h : g.update_game rands = some g') : g'.last_update = g.last_update := by
  unfold Game.update_game at h
  split at h
  · simp at h
  · rename_i head0 rest0 heq
    dsimp only at h
    split at h
    · simp at h
    · rename_i moved hmove
      by_cases hfood : head0 = g.food
      · have hd : decide (head0 = g.food) = true := decide_eq_true hfood
        simp only [hd, if_true] at h
        split at h
        · simp at h
        · rename_i g1 hplace
          split at hplace
          · simp at hplace
          · rename_i q hq
            injection hplace with hplace
            subst hplace
            split at h
            · simp at h
            · split at h
              · simp at h
              · split at h <;>
                · injection h with h
                  subst h
                  rfl
      · have hd : decide (head0 = g.food) = false := decide_eq_false hfood
        simp only [hd, Bool.false_eq_true, if_false] at h
        split at h
        · simp at h
        · split at h
          · simp at h
          · split at h <;>
            · injection h with h
              subst h
              rfl

end SnakeGame

namespace SnakeGame

/-! ## Concrete states used by counterexamples and witnesses -/

/-- A concrete small game state on a 20 by 10 board. -/
def demoGame : Game :=
  { snake := { body := [⟨10, 5⟩], direction := .right, next_direction := none }
    food := ⟨3, 3⟩
    score := 0
    game_over := false
    width := 20
    height := 10
    last_update := 0
    frame_duration := 150 }

/-- The state `demoGame` reaches after one simulation tick. -/
def demoGameStepped : Game :=
  { demoGame with
      snake := { body := [⟨11, 5⟩], direction := .right, next_direction := none } }

/-- A concrete game state whose head sits on the food. -/
def demoEatGame : Game :=
  { snake := { body := [⟨6, 5⟩, ⟨5, 5⟩], direction := .right, next_direction := none }
    food := ⟨6, 5⟩
    score := 0
    game_over := false
    width := 20
    height := 10
    last_update := 0
    frame_duration := 150 }

/-- The state `demoEatGame` reaches after the tick that eats the food, with
the rng stream `[(0, 0)]` relocating the food to `(1, 1)`. -/
def demoEatStepped : Game :=
  { demoEatGame with
      snake := { body := [⟨7, 5⟩, ⟨6, 5⟩, ⟨5, 5⟩], direction := .right
                 next_direction := none }
      score := 1
      food := ⟨1, 1⟩ }

/-- The operation sequence that drives a reachable snake into the saturated
border state used to refute the literal reading of the reversal claim:
turn up, turn left, then advance along `y = 4` until the head is pinned at
`x = 0` by the saturating subtraction. -/
def c1CexOps : List Op :=
  [Op.request .up, Op.advance true, Op.request .left] ++
    List.replicate 11 (Op.advance true)

/-- The reachable snake state at the end of `c1CexOps`: the head has been
pinned at `x = 0`, so head and neck already coincide. -/
def c1CexSnake : Snake :=
  { body := [⟨0, 4⟩, ⟨0, 4⟩, ⟨1, 4⟩, ⟨2, 4⟩, ⟨3, 4⟩, ⟨4, 4⟩, ⟨5, 4⟩, ⟨6, 4⟩,
             ⟨7, 4⟩, ⟨8, 4⟩, ⟨9, 4⟩, ⟨10, 4⟩, ⟨10, 5⟩]
    direction := .left
    next_direction := none }

/-! ## Claim C1 -/

/-- Claim C1, counterexample to the literal statement.  The state
`c1CexSnake` is reachable from `Snake.new 20 10` by non-reversing requests
and advances (it is the result of `c1CexOps`), has body length at least two
with neck `(0, 4)`, and yet the next advance produces a head equal to that
pre-advance neck: at the `x = 0` border the saturating subtraction pins the
head in place, so the claim as stated is false. -/
theorem c1_counterexample :
    runOps (Snake.new 20 10) c1CexOps = some c1CexSnake ∧
    Reach 20 10 c1CexSnake ∧
    c1CexSnake.body.head? = some ⟨0, 4⟩ ∧
    c1CexSnake.body.tail.head? = some ⟨0, 4⟩ ∧
    (c1CexSnake.move_forward true).map (fun s' => s'.body.head?) =
      some (some ⟨0, 4⟩) := by
  refine ⟨by decide, ?_, by decide, by decide, by decide⟩
  exact reach_runOps 20 10 _ Reach.init c1CexOps c1CexSnake (by decide)

/-- Claim C1 (amended): for every snake state reachable by advances and
direction-change requests on a `u16`-sized board, with body length at least
two, and whose head is strictly away from the zero borders (`1 ≤ x` and
`1 ≤ y`, where the saturating subtraction cannot pin it in place), an
advance never produces a new head equal to the pre-advance neck. -/
theorem c1_no_instant_reversal (w h : Nat) (s s' : Snake) (ate_food : Bool)
    (p0 p1 : Point) (rest : List Point)
    (hw : w < 65536) (hh : h < 65536)
    (hr : Reach w h s)
    (hbody : s.body = p0 :: p1 :: rest)
    (hx : 1 ≤ p0.x) (hy : 1 ≤ p0.y)
    (hm : s.move_forward ate_food = some s') :
    s'.body.head? ≠ some p1 := by
  have hinv := reach_inv w h s hw hh hr
  have hd := effective_ne_opposite s hinv
  obtain ⟨hb, _, hneck⟩ := hinv
  have hp0 : p0 = movePoint p1 s.direction := hneck p0 p1 rest hbody
  have hbp1 : p1.x < 65536 ∧ p1.y < 65536 :=
    hb p1 (by rw [hbody]; exact List.mem_cons_of_mem _ (List.mem_cons_self _ _))
  have hhd := move_forward_head? s s' ate_food p0 (by rw [hbody]; rfl) hm
  rw [hhd]
  intro hc
  injection hc with hc
  obtain ⟨x1, y1⟩ := p1
  obtain ⟨hx1, hy1⟩ := hbp1
  simp at hx1 hy1
  cases hdir : s.direction <;> cases heff : s.effective_direction <;>
    rw [hdir] at hp0 <;> rw [heff] at hc <;>
    first
    | (exact hd (by rw [heff, hdir]; rfl))
    | (subst hp0
       simp [movePoint, Point.mk.injEq] at hc hx hy
       omega)

/-- Witness for the amended claim C1, at a concrete reachable length-2 state
away from the borders. -/
theorem c1_no_instant_reversal_witness :
    (Snake.mk [⟨10, 4⟩, ⟨10, 5⟩] .up none).move_forward true =
      some (Snake.mk [⟨10, 3⟩, ⟨10, 4⟩, ⟨10, 5⟩] .up none) ∧
    (Snake.mk [⟨10, 3⟩, ⟨10, 4⟩, ⟨10, 5⟩] .up none).body.head? ≠ some ⟨10, 5⟩ := by
  constructor
  · decide
  · exact c1_no_instant_reversal 20 10 (Snake.mk [⟨10, 4⟩, ⟨10, 5⟩] .up none)
      (Snake.mk [⟨10, 3⟩, ⟨10, 4⟩, ⟨10, 5⟩] .up none) true ⟨10, 4⟩ ⟨10, 5⟩ []
      (by decide) (by decide)
      (Reach.advance true (Reach.request .up Reach.init) (by decide))
      (by decide) (by decide) (by decide) (by decide)

/-! ## Claim C2 -/

/-- Claim C2: whenever `place_food` returns on a board with width at least 20
and height at least 10, the food it places is strictly inside the border
(`1 ≤ x ≤ width - 2`, `1 ≤ y ≤ height - 2`) and not on the snake body. -/
theorem c2_place_food_in_bounds_and_free (width height : Nat) (body : List Point)
    (rands : List (Nat × Nat)) (p : Point)
    (hw : 20 ≤ width) (hh : 10 ≤ height)
    (hp : place_food width height body rands = some p) :
    1 ≤ p.x ∧ p.x ≤ width - 2 ∧ 1 ≤ p.y ∧ p.y ≤ height - 2 ∧ p ∉ body := by
  refine ⟨?_, ?_, ?_, ?_, place_food_not_mem width height body p rands hp⟩ <;>
  · induction rands with
    | nil => rw [place_food] at hp; simp at hp
    | cons hd rest ih =>
      obtain ⟨rx, ry⟩ := hd
      rw [place_food] at hp
      dsimp only at hp
      split at hp
      · simp at hp
      · split at hp
        · exact ih hp
        · injection hp with hp
          subst hp
          have hx := Nat.mod_lt rx (show 0 < width - 1 - 1 by omega)
          have hy := Nat.mod_lt ry (show 0 < height - 1 - 1 by omega)
          dsimp only [sample_range]
          omega

/-- Witness for claim C2 at a concrete board and rng stream. -/
theorem c2_place_food_witness :
    1 ≤ (Point.mk 1 1).x ∧ (Point.mk 1 1).x ≤ 20 - 2 ∧
    1 ≤ (Point.mk 1 1).y ∧ (Point.mk 1 1).y ≤ 10 - 2 ∧
    (Point.mk 1 1) ∉ ([] : List Point) :=
  c2_place_food_in_bounds_and_free 20 10 [] [(0, 0)] ⟨1, 1⟩ (by decide) (by decide)
    (by decide)

end SnakeGame

namespace SnakeGame

/-! ## Claim C3 -/

/-- Claim C3: for a running game, one tick of `update_game` sets the terminal
flag exactly when the post-advance head is on the border (`x = 0`,
`x = width - 1`, `y = 0`, `y = height - 1`) or equals some other segment of
the post-advance body. -/
theorem c3_terminal_iff_collision (g : Game) (rands : List (Nat × Nat))
    (g' : Game) (new_head : Point)
    (hrun : g.game_over = false)
    (hup : g.update_game rands = some g')
    (hnh : g'.snake.body.head? = some new_head) :
    (g'.game_over = true ↔
      new_head.x = 0 ∨ new_head.x = g.width - 1 ∨ new_head.y = 0 ∨
      new_head.y = g.height - 1 ∨ new_head ∈ g'.snake.body.tail) := by
  unfold Game.update_game at hup
  split at hup
  · simp at hup
  · rename_i head0 rest0 heq
    dsimp only at hup
    split at hup
    · simp at hup
    · rename_i moved hmove
      by_cases hfood : head0 = g.food
      · have hd : decide (head0 = g.food) = true := decide_eq_true hfood
        simp only [hd, if_true] at hup
        split at hup
        · simp at hup
        · rename_i g1 hplace
          split at hplace
          · simp at hplace
          · rename_i q hq
            injection hplace with hplace
            subst hplace
            split at hup
            · simp at hup
            · rename_i new_head0 tail2 hbody2
              split at hup
              · simp at hup
              · rename_i self_hit hself
                try dsimp only at hbody2 hself
                have hiff := self_hit_iff _ _ _ _ hbody2 hself
                split at hup
                · rename_i hcond
                  injection hup with hup
                  subst hup
                  try dsimp only at hnh ⊢
                  rw [hbody2] at hnh
                  simp at hnh
                  subst hnh
                  simp only [hbody2, List.tail_cons, eq_self_iff_true, true_iff]
                  rcases hcond with hc | hc | hc | hc | hc
                  · exact Or.inl hc
                  · exact Or.inr (Or.inl hc)
                  · exact Or.inr (Or.inr (Or.inl hc))
                  · exact Or.inr (Or.inr (Or.inr (Or.inl hc)))
                  · exact Or.inr (Or.inr (Or.inr (Or.inr (hiff.mp hc))))
                · rename_i hcond
                  injection hup with hup
                  subst hup
                  try dsimp only at hnh ⊢
                  rw [hbody2] at hnh
                  simp at hnh
                  subst hnh
                  simp only [hbody2, List.tail_cons, hrun, Bool.false_eq_true,
                    false_iff]
                  intro hcon
                  apply hcond
                  rcases hcon with hc | hc | hc | hc | hc
                  · exact Or.inl hc
                  · exact Or.inr (Or.inl hc)
                  · exact Or.inr (Or.inr (Or.inl hc))
                  · exact Or.inr (Or.inr (Or.inr (Or.inl hc)))
                  · exact Or.inr (Or.inr (Or.inr (Or.inr (hiff.mpr hc))))
      · have hd : decide (head0 = g.food) = false := decide_eq_false hfood
        simp only [hd, Bool.false_eq_true, if_false] at hup
        split at hup
        · simp at hup
        · rename_i new_head0 tail2 hbody2
          split at hup
          · simp at hup
          · rename_i self_hit hself
            try dsimp only at hbody2 hself
            have hiff := self_hit_iff _ _ _ _ hbody2 hself
            split at hup
            · rename_i hcond
              injection hup with hup
              subst hup
              try dsimp only at hnh ⊢
              rw [hbody2] at hnh
              simp at hnh
              subst hnh
              simp only [hbody2, List.tail_cons, eq_self_iff_true, true_iff]
              rcases hcond with hc | hc | hc | hc | hc
              · exact Or.inl hc
              · exact Or.inr (Or.inl hc)
              · exact Or.inr (Or.inr (Or.inl hc))
              · exact Or.inr (Or.inr (Or.inr (Or.inl hc)))
              · exact Or.inr (Or.inr (Or.inr (Or.inr (hiff.mp hc))))
            · rename_i hcond
              injection hup with hup
              subst hup
              try dsimp only at hnh ⊢
              rw [hbody2] at hnh
              simp at hnh
              subst hnh
              simp only [hbody2, List.tail_cons, hrun, Bool.false_eq_true,
                false_iff]
              intro hcon
              apply hcond
              rcases hcon with hc | hc | hc | hc | hc
              · exact Or.inl hc
              · exact Or.inr (Or.inl hc)
              · exact Or.inr (Or.inr (Or.inl hc))
              · exact Or.inr (Or.inr (Or.inr (Or.inl hc)))
              · exact Or.inr (Or.inr (Or.inr (Or.inr (hiff.mpr hc))))

/-- Witness for claim C3 at a concrete running game. -/
theorem c3_terminal_iff_collision_witness :
    demoGame.game_over = false ∧
    demoGame.update_game [] = some demoGameStepped ∧
    demoGameStepped.snake.body.head? = some ⟨11, 5⟩ ∧
    (demoGameStepped.game_over = true ↔
      (Point.mk 11 5).x = 0 ∨ (Point.mk 11 5).x = demoGame.width - 1 ∨
      (Point.mk 11 5).y = 0 ∨ (Point.mk 11 5).y = demoGame.height - 1 ∨
      (Point.mk 11 5) ∈ demoGameStepped.snake.body.tail) :=
  ⟨rfl, by decide, by decide,
    c3_terminal_iff_collision demoGame [] demoGameStepped ⟨11, 5⟩ rfl (by decide)
      (by decide)⟩

/-! ## Claim C4 -/

/-- Claim C4: `update_game` computes `ate_food` as equality of the pre-advance
head with the food; when they are equal the score goes up by exactly one and
the relocated food avoids every segment of the post-advance (grown) body,
and when they differ the score and the food are untouched. -/
theorem c4_eat_updates_score_and_food (g : Game) (rands : List (Nat × Nat))
    (g' : Game) (head : Point)
    (hhead : g.snake.body.head? = some head)
    (hup : g.update_game rands = some g') :
    (head = g.food → g'.score = g.score + 1 ∧ g'.food ∉ g'.snake.body) ∧
    (head ≠ g.food → g'.score = g.score ∧ g'.food = g.food) := by
  unfold Game.update_game at hup
  split at hup
  · simp at hup
  · rename_i head0 rest0 heq
    rw [heq] at hhead
    simp at hhead
    subst hhead
    dsimp only at hup
    split at hup
    · simp at hup
    · rename_i moved hmove
      by_cases hfood : head0 = g.food
      · have hd : decide (head0 = g.food) = true := decide_eq_true hfood
        simp only [hd, if_true] at hup
        refine ⟨fun _ => ?_, fun hne => absurd hfood hne⟩
        split at hup
        · simp at hup
        · rename_i g1 hplace
          split at hplace
          · simp at hplace
          · rename_i q hq
            injection hplace with hplace
            subst hplace
            split at hup
            · simp at hup
            · rename_i new_head tail2 hbody2
              split at hup
              · simp at hup
              · rename_i self_hit hself
                have hnot := place_food_not_mem _ _ _ _ _ hq
                split at hup <;>
                · injection hup with hup
                  subst hup
                  exact ⟨rfl, hnot⟩
      · have hd : decide (head0 = g.food) = false := decide_eq_false hfood
        simp only [hd, Bool.false_eq_true, if_false] at hup
        refine ⟨fun hf => absurd hf hfood, fun _ => ?_⟩
        split at hup
        · simp at hup
        · rename_i new_head tail2 hbody2
          split at hup
          · simp at hup
          · rename_i self_hit hself
            split at hup <;>
            · injection hup with hup
              subst hup
              exact ⟨rfl, rfl⟩

/-- Witness for claim C4 at a concrete eating tick. -/
theorem c4_eat_updates_score_and_food_witness :
    demoEatGame.snake.body.head? = some ⟨6, 5⟩ ∧
    (Point.mk 6 5) = demoEatGame.food ∧
    demoEatGame.update_game [(0, 0)] = some demoEatStepped ∧
    demoEatStepped.score = demoEatGame.score + 1 ∧
    demoEatStepped.food ∉ demoEatStepped.snake.body :=
  ⟨by decide, by decide, by decide,
    (c4_eat_updates_score_and_food demoEatGame [(0, 0)] demoEatStepped ⟨6, 5⟩
      (by decide) (by decide)).1 (by decide)⟩

end SnakeGame

namespace SnakeGame

/-! ## Claim C5 -/

/-- Claim C5: an advance with `ate_food = false` leaves the body length
unchanged and an advance with `ate_food = true` increases it by exactly
one. -/
theorem c5_advance_length (s s' : Snake) (ate_food : Bool)
    (hm : s.move_forward ate_food = some s') :
    s'.body.length = if ate_food then s.body.length + 1 else s.body.length := by
  unfold Snake.move_forward at hm
  cases hb : s.body with
  | nil => rw [hb] at hm; simp at hm
  | cons h0 rest =>
    rw [hb] at hm
    simp at hm
    subst hm
    cases ate_food <;> simp

/-- Witness for claim C5, one advance of each kind from the initial snake. -/
theorem c5_advance_length_witness :
    (Snake.new 20 10).move_forward false = some (Snake.mk [⟨11, 5⟩] .right none) ∧
    (Snake.mk [⟨11, 5⟩] .right none).body.length =
      (if false then (Snake.new 20 10).body.length + 1
       else (Snake.new 20 10).body.length) ∧
    (Snake.new 20 10).move_forward true =
      some (Snake.mk [⟨11, 5⟩, ⟨10, 5⟩] .right none) ∧
    (Snake.mk [⟨11, 5⟩, ⟨10, 5⟩] .right none).body.length =
      (if true then (Snake.new 20 10).body.length + 1
       else (Snake.new 20 10).body.length) :=
  ⟨by decide, c5_advance_length _ _ false (by decide),
   by decide, c5_advance_length _ _ true (by decide)⟩

/-! ## Claim C6 -/

/-- Claim C6: requesting the exact opposite of the direction currently in
effect leaves the buffered direction unchanged (silently dropped), while
requesting any other direction overwrites the buffer with that direction. -/
theorem c6_change_direction (s : Snake) (d : Direction) :
    (d = s.direction.opposite → s.change_direction d = s) ∧
    (d ≠ s.direction.opposite →
      s.change_direction d = { s with next_direction := some d }) := by
  constructor
  · intro h
    subst h
    simp [Snake.change_direction, opposite_opposite]
  · intro h
    have hc : s.direction ≠ d.opposite := fun hc => h (by rw [hc, opposite_opposite])
    simp [Snake.change_direction, hc]

/-- Witness for claim C6: from the initial snake (moving right), a `left`
request is dropped and an `up` request overwrites the buffer. -/
theorem c6_change_direction_witness :
    ((Snake.new 20 10).change_direction .left = Snake.new 20 10) ∧
    ((Snake.new 20 10).change_direction .up =
      { Snake.new 20 10 with next_direction := some .up }) :=
  ⟨(c6_change_direction (Snake.new 20 10) .left).1 (by decide),
   (c6_change_direction (Snake.new 20 10) .up).2 (by decide)⟩

/-! ## Claim C7 -/

/-- Claim C7: decrementing a coordinate at zero saturates.  An advance whose
effective direction is `left` from a head with `x = 0` keeps `x = 0`, and an
advance whose effective direction is `up` from a head with `y = 0` keeps
`y = 0`. -/
theorem c7_saturating_at_zero (s s' : Snake) (ate_food : Bool) (head : Point)
    (hh : s.body.head? = some head) (hm : s.move_forward ate_food = some s') :
    (s.effective_direction = .left → head.x = 0 →
      s'.body.head? = some ⟨0, head.y⟩) ∧
    (s.effective_direction = .up → head.y = 0 →
      s'.body.head? = some ⟨head.x, 0⟩) := by
  have hhd := move_forward_head? s s' ate_food head hh hm
  constructor
  · intro hdir hx
    rw [hhd, hdir]
    simp [movePoint, hx]
  · intro hdir hy
    rw [hhd, hdir]
    simp [movePoint, hy]

/-- Witness for claim C7: a head at the left border moving left stays put. -/
theorem c7_saturating_at_zero_witness :
    (Snake.mk [⟨0, 5⟩] .left none).move_forward false =
      some (Snake.mk [⟨0, 5⟩] .left none) ∧
    (((Snake.mk [⟨0, 5⟩] .left none).effective_direction = .left →
        (Point.mk 0 5).x = 0 →
        (Snake.mk [⟨0, 5⟩] .left none).body.head? = some ⟨0, (Point.mk 0 5).y⟩) ∧
      ((Snake.mk [⟨0, 5⟩] .left none).effective_direction = .up →
        (Point.mk 0 5).y = 0 →
        (Snake.mk [⟨0, 5⟩] .left none).body.head? = some ⟨(Point.mk 0 5).x, 0⟩)) :=
  ⟨by decide,
   c7_saturating_at_zero (Snake.mk [⟨0, 5⟩] .left none)
     (Snake.mk [⟨0, 5⟩] .left none) false ⟨0, 5⟩ (by decide) (by decide)⟩

/-! ## Claim C8 -/

/-- Claim C8, counterexample to the literal statement: processing a `quit`
intent does modify the game state — it flips the `game_over` flag from
`false` to `true` on `demoGame`, so the terminal flag is not unchanged. -/
theorem c8_counterexample :
    demoGame.game_over = false ∧
    (demoGame.handle_one Intent.quit).game_over = true :=
  ⟨rfl, rfl⟩

/-- Claim C8 (amended): processing a `quit` intent leaves the snake, the food
and the score unchanged, but realizes the quit by setting the `game_over`
flag inside the game state — the same flag that marks the terminal state and
that the main loop tests — rather than a loop-exit flag outside it. -/
theorem c8_quit_sets_game_over (g : Game) :
    (g.handle_one Intent.quit).snake = g.snake ∧
    (g.handle_one Intent.quit).food = g.food ∧
    (g.handle_one Intent.quit).score = g.score ∧
    (g.handle_one Intent.quit).game_over = true :=
  ⟨rfl, rfl, rfl, rfl⟩

/-! ## Claim C9 -/

/-- Claim C9: the tick gate admits a step exactly when the saturating elapsed
time `now - last_update` has reached the interval, and an admitted step
stores `now` itself (not `last_update + interval`) as the new
`last_update`, so missed ticks are dropped; a refused step leaves the game
unchanged. -/
theorem c9_scheduler (now last_update frame_duration : Nat) (g g' : Game)
    (rands : List (Nat × Nat))
    (hl : g.last_update = last_update) (hf : g.frame_duration = frame_duration)
    (htick : g.tick now rands = some g') :
    (should_step now last_update frame_duration = true ↔
      frame_duration ≤ now - last_update) ∧
    (should_step now last_update frame_duration = true → g'.last_update = now) ∧
    (should_step now last_update frame_duration = false → g' = g) := by
  refine ⟨by simp [should_step], ?_, ?_⟩
  all_goals unfold Game.tick at htick
  all_goals rw [hl, hf] at htick
  · intro hstep
    rw [if_pos hstep] at htick
    have := update_game_last_update _ _ _ htick
    rw [this]
  · intro hstep
    rw [hstep] at htick
    simp at htick
    exact htick.symm

/-- Witness for claim C9: `demoGame` (interval 150, last update 0) at time
150 admits a step and records 150 as the new `last_update`. -/
theorem c9_scheduler_witness :
    demoGame.tick 150 [] = some { demoGameStepped with last_update := 150 } ∧
    ((should_step 150 0 150 = true ↔ 150 ≤ 150 - 0) ∧
      (should_step 150 0 150 = true →
        ({ demoGameStepped with last_update := 150 } : Game).last_update = 150) ∧
      (should_step 150 0 150 = false →
        { demoGameStepped with last_update := 150 } = demoGame)) :=
  ⟨by decide,
   c9_scheduler 150 0 150 demoGame { demoGameStepped with last_update := 150 } []
     rfl rfl (by decide)⟩

/-! ## Claim C10 -/

/-- Claim C10: the freshly constructed snake has body length exactly one, and
every reachable snake state has a nonempty body, so the internal
`front().unwrap()` accesses of `move_forward` and `has_collided_with_self`
(modelled as `none` results) can never fail. -/
theorem c10_body_never_empty (w h : Nat) (s : Snake) (ate_food : Bool)
    (hr : Reach w h s) :
    (Snake.new w h).body.length = 1 ∧ 1 ≤ s.body.length ∧
    s.move_forward ate_food ≠ none ∧ s.has_collided_with_self ≠ none := by
  have hne := reach_body_ne_nil w h s hr
  refine ⟨rfl, List.length_pos.mpr hne, ?_, ?_⟩
  · unfold Snake.move_forward
    cases hb : s.body with
    | nil => exact absurd hb hne
    | cons h0 rest => simp
  · unfold Snake.has_collided_with_self
    cases hb : s.body with
    | nil => exact absurd hb hne
    | cons h0 rest => simp

/-- Witness for claim C10 at the initial snake. -/
theorem c10_body_never_empty_witness :
    (Snake.new 20 10).body.length = 1 ∧ 1 ≤ (Snake.new 20 10).body.length ∧
    (Snake.new 20 10).move_forward false ≠ none ∧
    (Snake.new 20 10).has_collided_with_self ≠ none :=
  c10_body_never_empty 20 10 (Snake.new 20 10) false Reach.init

end SnakeGame
